import Mathlib

/-!
Verification development for the prism-py repository: a shallow embedding of
its metadata-cache loading, query-filter translation, routine-signature
parsing, routine invocation shaping, and type mapping, with theorems settling
the specification claims against the embedded code.
-/

set_option autoImplicit false

/- ## Python primitives used by the embedded code -/

/-- Lowercase a string (ASCII case folding, character by character). -/
def pyLower (s : String) : String := String.mk (s.toList.map Char.toLower)

/-- Uppercase a string (ASCII case folding, character by character);
Python `str.upper()`. -/
def pyUpper (s : String) : String := String.mk (s.toList.map Char.toUpper)

/-- `" ".join(parts)`. -/
def pyJoinSpace (parts : List String) : String :=
  String.mk (List.intercalate [' '] (parts.map String.toList))

/-- Split at every separator character satisfying `p`, keeping empty pieces. -/
def listSplitWhen (p : Char → Bool) : List Char → List Char → List (List Char)
  | [], acc => [acc.reverse]
  | c :: rest, acc =>
    if p c then acc.reverse :: listSplitWhen p rest []
    else listSplitWhen p rest (c :: acc)

/-- Python `str.split()` with no argument: split on runs of whitespace,
dropping empty pieces. -/
def pySplitWs (s : String) : List String :=
  ((listSplitWhen Char.isWhitespace s.toList []).map String.mk).filter (fun p => p ≠ "")

/-- Left-to-right scan splitting a character list at every occurrence of the
(non-empty) separator `sep`; the fuel bounds the recursion and is always
given as more than the list length, so it never runs out. -/
def listSplitOnSep (sep : List Char) : Nat → List Char → List Char → List (List Char)
  | 0, l, acc => [acc.reverse ++ l]
  | _ + 1, [], acc => [acc.reverse]
  | fuel + 1, c :: rest, acc =>
    if sep.isPrefixOf (c :: rest) then
      acc.reverse :: listSplitOnSep sep fuel ((c :: rest).drop sep.length) []
    else listSplitOnSep sep fuel rest (c :: acc)

/-- Python `s.split(sep)` for a non-empty separator, keeping empty pieces. -/
def pySplitOnSep (sep s : String) : List String :=
  (listSplitOnSep sep.toList (s.length + 1) s.toList []).map String.mk

/-- Left-to-right scan replacing every occurrence of the (non-empty) pattern;
fuel as in `listSplitOnSep`. -/
def listReplace (pat rep : List Char) : Nat → List Char → List Char
  | 0, l => l
  | _ + 1, [] => []
  | fuel + 1, c :: rest =>
    if pat.isPrefixOf (c :: rest) then
      rep ++ listReplace pat rep fuel ((c :: rest).drop pat.length)
    else c :: listReplace pat rep fuel rest

/-- Python `s.replace(pat, rep)`. -/
def pyReplace (s pat rep : String) : String :=
  String.mk (listReplace pat.toList rep.toList (s.length + 1) s.toList)

/-- Python `s.endswith(suffix)`. -/
def pyEndsWith (s suffix : String) : Bool :=
  suffix.toList.isSuffixOf s.toList

/-- Drop the last `n` characters of a string. -/
def pyDropRight (s : String) (n : Nat) : String :=
  String.mk (s.toList.take (s.toList.length - n))

/-- Python `str.strip(chars)`: remove leading and trailing characters that
belong to `chars`. -/
def pyStripChars (chars : List Char) (s : String) : String :=
  let l := s.toList.dropWhile (fun c => chars.contains c)
  let r := (l.reverse.dropWhile (fun c => chars.contains c)).reverse
  String.mk r

/-- Python `str.strip()` with no argument: remove leading and trailing
whitespace. -/
def pyStripWsEnds (s : String) : String :=
  let l := s.toList.dropWhile Char.isWhitespace
  String.mk ((l.reverse.dropWhile Char.isWhitespace).reverse)

/-- Python `sub in s` substring containment test. -/
def pyContainsSub (s sub : String) : Bool :=
  s.toList.tails.any (fun t => sub.toList.isPrefixOf t)

/-- Python `s.split(sep, 1)` restricted to the first piece and the joined
remainder, for a single-character separator `' '`; used as
`column.split(" ", 1)` in the source. Returns the text before the first
space and the text after it. -/
def pySplitOnceSpace (s : String) : String × String :=
  let before := s.toList.takeWhile (fun c => c ≠ ' ')
  let after := (s.toList.dropWhile (fun c => c ≠ ' ')).drop 1
  (String.mk before, String.mk after)

/-- A Python runtime value, as far as the embedded code inspects one. -/
inductive PyValue where
  | str (s : String)
  | int (n : Int)
  | bool (b : Bool)
  | list (elems : List String)
deriving DecidableEq, Repr

/-- Python `dict` keyed by strings, as an insertion-ordered association list.
`dictSet` is dict assignment: it replaces the value at an existing key in
place, else appends the new pair at the end. -/
def dictSet {α : Type} : List (String × α) → String → α → List (String × α)
  | [], k, v => [(k, v)]
  | (k1, v1) :: rest, k, v =>
    if k1 = k then (k, v) :: rest else (k1, v1) :: dictSet rest k v

/-- Python `d.get(k)` / `d[k]` lookup on the association-list dict. -/
def dictFind {α : Type} : List (String × α) → String → Option α
  | [], _ => none
  | (k1, v1) :: rest, k => if k1 = k then some v1 else dictFind rest k

/-- Python `k in d` membership test on the association-list dict. -/
def dictHas {α : Type} (d : List (String × α)) (k : String) : Bool :=
  (dictFind d k).isSome

/- ## Type-Mapping Engine -/

/-- Scalar classification kinds produced by the type-mapping engine. -/
inductive ScalarKind where
  | int | float | str | bool | datetime | uuid | bytes
deriving DecidableEq, Repr

/-- Semantic type descriptor: the closed set of variants
`Scalar(kind)`, `Array(itemDescriptor)`, `Structured(isListOfObjects)`. -/
inductive EqType where
  | scalar (k : ScalarKind)
  | array (item : EqType)
  | structured (isList : Bool)
deriving DecidableEq, Repr

/-- A sample value, as far as the type-mapping engine inspects one: it only
asks whether the sample is a sequence. -/
inductive PySample where
  | scalarSample
  | listSample
deriving DecidableEq, Repr

/-- Modelled from the spec: the closed catalog of recognized base SQL type
names and their fixed scalar kinds (`forge/common/types.py` /
`prism/common/types.py`, which define `get_eq_type`, are not part of the
provided sources; spec section 4.1). -/
def baseScalarKinds : List (String × ScalarKind) :=
  [("smallint", .int), ("integer", .int), ("int", .int), ("int2", .int),
   ("int4", .int), ("int8", .int), ("bigint", .int), ("serial", .int),
   ("bigserial", .int),
   ("real", .float), ("float", .float), ("float4", .float), ("float8", .float),
   ("double precision", .float), ("numeric", .float), ("decimal", .float),
   ("text", .str), ("varchar", .str), ("character varying", .str),
   ("char", .str), ("character", .str),
   ("boolean", .bool), ("bool", .bool),
   ("date", .datetime), ("time", .datetime), ("timestamp", .datetime),
   ("timestamptz", .datetime), ("timestamp with time zone", .datetime),
   ("timestamp without time zone", .datetime), ("interval", .datetime),
   ("uuid", .uuid), ("bytea", .bytes)]

/-- The JSON/JSONB family of type names, which map to `Structured`. -/
def jsonFamily : List String := ["json", "jsonb"]

/-- Modelled from the spec: core of `get_eq_type` (spec section 4.1).
Type names ending in the array suffix `[]` map to `Array` of the recursively
mapped element name; JSON-family names map to `Structured`, refined to a
list-of-structured shape when the advisory sample is a sequence; recognized
base names map to their fixed scalar kind; any other name falls back to the
generic text kind and never raises. Name matching is case-insensitive.
Fuel is the string length, enough for every array-suffix recursion. -/
def get_eq_type_core : Nat → String → Option PySample → EqType
  | 0, _, _ => .scalar .str
  | fuel + 1, s, sample =>
    let t := pyLower s
    if pyEndsWith t "[]" then
      .array (get_eq_type_core fuel (pyDropRight t 2) none)
    else if jsonFamily.contains t then
      .structured (sample = some .listSample)
    else
      match dictFind baseScalarKinds t with
      | some k => .scalar k
      | none => .scalar .str

/-- Modelled from the spec: `get_eq_type(raw_sql_type, sample_value, nullable)`
(spec section 4.1). Nullability only controls `Optional` wrapping in the
generated record models, not the semantic descriptor, so it is not a field of
`EqType`. -/
def get_eq_type (s : String) (sample : Option PySample := none) : EqType :=
  get_eq_type_core (s.length + 1) s sample

/- ## Routine signatures: `ModelManager._discover_functions` helpers
(src/forge/db/models.py) -/

/-- `FunctionParameter` as constructed by `parse_parameters`: name, raw type
string and mode (`IN`/`OUT`/`INOUT`/`VARIADIC`, default `IN`). -/
structure FunctionParameter where
  name : String
  type : String
  mode : String := "IN"
deriving DecidableEq, Repr

/-- The recognized parameter-mode keywords, uppercased. -/
def parameterModes : List String := ["IN", "OUT", "INOUT", "VARIADIC"]

/-- The loop body of `parse_parameters` from
`ModelManager._discover_functions`, for one comma-delimited entry: split the
entry on whitespace; when the first token uppercases to a mode keyword, it is
the mode, the next token the name and the rest (joined by spaces) the type;
otherwise the mode defaults to `IN`, the first token is the name and the rest
the type; an empty entry yields a parameter with empty name and type and
mode `IN`. -/
def parse_parameter_entry (arg : String) : FunctionParameter :=
  let parts := pySplitWs arg
  match parts with
  | [] => { name := "", type := "", mode := "IN" }
  | p0 :: rest =>
    if parameterModes.contains (pyUpper p0) then
      { name := rest.headD "",
        type := pyJoinSpace (rest.drop 1),
        mode := pyUpper p0 }
    else
      { name := p0, type := pyJoinSpace rest, mode := "IN" }

/-- `parse_parameters(args_str)`: split the argument list on `", "` and
parse each entry with `parse_parameter_entry`. -/
def parse_parameters (args_str : String) : List FunctionParameter :=
  if args_str = "" then []
  else (pySplitOnSep ", " args_str).map parse_parameter_entry

/-- `FunctionType` (values assigned by `determine_function_type`). -/
inductive FunctionType where
  | scalar | table | setReturning | aggregate | window
deriving DecidableEq, Repr

/-- `determine_function_type(row)` from `ModelManager._discover_functions`:
set-returning when the catalog marks the routine as returning a set; table
when the return type mentions `TABLE`; aggregate/window from the kind code;
otherwise scalar. `return_type` is the raw string (empty models SQL NULL,
matching `row.return_type or ""`). -/
def determine_function_type (returns_set : Bool) (return_type : String)
    (kind : String) : FunctionType :=
  if returns_set then .setReturning
  else if pyContainsSub return_type "TABLE" then .table
  else if kind = "a" then .aggregate
  else if kind = "w" then .window
  else .scalar

/-- `get_volatility(volatility_char)`: maps the single-character catalog
volatility code, defaulting to `VOLATILE`. -/
def get_volatility (volatility_char : String) : String :=
  match dictFind [("i", "IMMUTABLE"), ("s", "STABLE"), ("v", "VOLATILE")] volatility_char with
  | some v => v
  | none => "VOLATILE"

/- ## Routine Invocation Planner: `ApiPrism._parse_table_return_type` and the
output-shape construction in `ApiPrism._generate_function_routes`
(src/prism/prism.py) -/

/-- The Python type placed in an output field definition: either a semantic
type from `get_eq_type` (with `ArrayType` converted to `List[item]` where the
source does so), the literal `str` fallback, or `Any`. -/
inductive FieldType where
  | ofEq (t : EqType)
  | pyList (item : EqType)
  | strFallback
  | anyFallback
deriving DecidableEq, Repr

/-- The `field_type = get_eq_type(...); if isinstance(field_type, ArrayType):
field_type = List[field_type.item_type]` idiom. -/
def mkListAwareField (t : EqType) : FieldType :=
  match t with
  | .array item => .pyList item
  | t => .ofEq t

/-- `ApiPrism._parse_table_return_type(return_type)`: parse `TABLE`/`SETOF`
return types into named field definitions; anything unparsable falls back to
a single `result` field of Python `str`. -/
def parse_table_return_type (return_type : String) : List (String × FieldType) :=
  if return_type = "" then [("result", .strFallback)]
  else if !(pyContainsSub return_type "TABLE" || pyContainsSub return_type "SETOF") then
    [("result", get_eq_type return_type |> .ofEq)]
  else if pyContainsSub return_type "TABLE" then
    let columns_str := pyStripWsEnds (pyStripChars ['(', ')'] (pyReplace return_type "TABLE" ""))
    if columns_str = "" then [("result", .strFallback)]
    else
      let columns := (pySplitOnSep "," columns_str).map pyStripWsEnds
      let fields := columns.foldl (fun fs column =>
        if !(column.toList.contains ' ') then fs
        else
          let nt := pySplitOnceSpace column
          dictSet fs nt.1 (mkListAwareField (get_eq_type nt.2))) []
      if fields.isEmpty then [("result", .strFallback)] else fields
  else
    let type_str := pyStripWsEnds (pyReplace return_type "SETOF" "")
    if type_str.toList.contains '.' then [("result", .strFallback)]
    else [("result", get_eq_type type_str |> .ofEq)]

/-- `is_set` as computed in `ApiPrism._generate_function_routes`. -/
def is_set_of (t : FunctionType) : Bool :=
  t = .table || t = .setReturning

/-- The output-shape construction of `ApiPrism._generate_function_routes` for
function routes: table/set-returning routines (or a return type mentioning
`TABLE`) go through `_parse_table_return_type`; otherwise a single `result`
field of the mapped (array-aware) return type; an empty shape falls back to a
single `result : Any` field. An absent return type reads as `""` in the
set branch and `"void"` in the scalar branch, matching the `or` defaults. -/
def function_output_fields (fnType : FunctionType) (return_type : String) :
    List (String × FieldType) :=
  let output_fields :=
    if is_set_of fnType || pyContainsSub return_type "TABLE" then
      parse_table_return_type return_type
    else
      [("result", mkListAwareField (get_eq_type (if return_type = "" then "void" else return_type)))]
  if output_fields.isEmpty then [("result", .anyFallback)] else output_fields

/- ## Routine invocation result shaping: `execute_function` inside
`ApiPrism._generate_function_routes.create_function_handler`
(src/prism/prism.py) -/

/-- A fetched SQL row, `row._mapping`: ordered column name / value pairs,
`none` for SQL NULL. -/
abbrev SqlRecord := List (String × Option PyValue)

/-- The shaped response of a function route: a single record or a list of
records. -/
inductive FnResult where
  | single (r : SqlRecord)
  | list (rs : List SqlRecord)
deriving DecidableEq, Repr

/-- The result-shaping logic of `execute_function`: a scalar routine fetches
one row — no row gives `{result: None}`, a single-column row collapses to
`{result: value}`, a wider row is returned as the full record; other routines
fetch all rows — no rows give an empty list when set-returning and an
all-null record otherwise, more than one row or a set-returning routine gives
the list of records, and a single row otherwise gives that record. -/
def execute_function_shape (fnType : FunctionType) (is_set : Bool)
    (outputFieldNames : List String) (rows : List SqlRecord) : FnResult :=
  if fnType = .scalar then
    match rows with
    | [] => .single [("result", none)]
    | r :: _ =>
      match r with
      | [(_, v)] => .single [("result", v)]
      | _ => .single r
  else
    match rows with
    | [] =>
      if is_set then .list []
      else .single (outputFieldNames.map (fun f => (f, none)))
    | r :: restRows =>
      if restRows.length + 1 > 1 || is_set then .list (r :: restRows)
      else .single r

/- ## Metadata Cache: `ModelManager` loading (src/forge/db/models.py) -/

/-- An introspected column, as far as `_load_models` / `_load_enums` inspect
it: its name, whether its SQLAlchemy type is an `Enum`, and in that case the
enum labels in the order `column.type.enums` presents them. -/
structure IntroColumn where
  name : String
  isEnum : Bool := false
  enumValues : List String := []
deriving DecidableEq, Repr

/-- An introspected table from `metadata.tables.values()`. The cached table
entry `(table, (pydantic_model, sqlalchemy_model))` is a function of this
data, so the table itself stands for the cached value. -/
structure IntroTable where
  name : String
  columns : List IntroColumn := []
deriving DecidableEq, Repr

/-- `EnumInfo(name, values, python_enum, schema)` as stored by `_load_enums`;
`python_enum` is derived from `values` and is omitted. -/
structure EnumInfo where
  name : String
  values : List String
  schema : String
deriving DecidableEq, Repr

/-- One row of the `_discover_functions` catalog query, with the fields the
Python code reads from it (`object_type` and `trigger_events` are computed
inside the SQL text). Empty strings model SQL NULLs where the code applies
`or ""` / `or "void"` defaults. -/
structure FnRow where
  schema : String
  name : String
  arguments : String
  return_type : String
  is_strict : Bool := false
  returns_set : Bool := false
  kind : String := "f"
  object_type : String
  description : Option String := none
deriving DecidableEq, Repr

/-- `FunctionMetadata` as built from a catalog row in
`_discover_functions`. -/
structure FunctionMetadata where
  schema : String
  name : String
  return_type : String
  parameters : List FunctionParameter
  type : FunctionType
  object_type : String
  is_strict : Bool
  description : Option String
deriving DecidableEq, Repr

/-- The database as seen by one load pass: the SQLAlchemy
`metadata.tables.values()` iteration, the inspector's per-schema table and
view name lists, and the rows produced by the function-discovery query. -/
structure DbSnapshot where
  metaTables : List IntroTable
  tableNames : String → List String
  viewNames : String → List String
  fnRows : List FnRow

/-- The six cache dictionaries owned by `ModelManager`. -/
structure MMState where
  table_cache : List (String × IntroTable) := []
  view_cache : List (String × IntroTable) := []
  enum_cache : List (String × EnumInfo) := []
  fn_cache : List (String × FunctionMetadata) := []
  proc_cache : List (String × FunctionMetadata) := []
  trig_cache : List (String × FunctionMetadata) := []
deriving DecidableEq, Repr

/-- `ModelManager._load_models`: for each included schema and each table of
`metadata.tables.values()` whose name the inspector lists for that schema and
that is not excluded, assign `self.table_cache[f"{schema}.{table.name}"]` —
an in-place per-entry dict assignment on the existing cache. -/
def load_models (include_schemas exclude_tables : List String) (db : DbSnapshot)
    (cache : List (String × IntroTable)) : List (String × IntroTable) :=
  include_schemas.foldl (fun c schema =>
    db.metaTables.foldl (fun c table =>
      if (db.tableNames schema).contains table.name
          && !(exclude_tables.contains table.name) then
        dictSet c (schema ++ "." ++ table.name) table
      else c) c) cache

/-- `ModelManager._load_views`: like `_load_models` but over the inspector's
view names for the schema (no exclusion check in the source). -/
def load_views (include_schemas : List String) (db : DbSnapshot)
    (cache : List (String × IntroTable)) : List (String × IntroTable) :=
  include_schemas.foldl (fun c schema =>
    db.metaTables.foldl (fun c table =>
      if (db.viewNames schema).contains table.name then
        dictSet c (schema ++ "." ++ table.name) table
      else c) c) cache

/-- `ModelManager._load_enums`: for each included, non-excluded table's
columns whose type is an enum, store `EnumInfo` under the key
`f"{column.name}_enum"` — only when that key is not already present
(`if enum_name not in self.enum_cache`). -/
def load_enums (include_schemas exclude_tables : List String) (db : DbSnapshot)
    (cache : List (String × EnumInfo)) : List (String × EnumInfo) :=
  include_schemas.foldl (fun c schema =>
    db.metaTables.foldl (fun c table =>
      if (db.tableNames schema).contains table.name
          && !(exclude_tables.contains table.name) then
        table.columns.foldl (fun c column =>
          if column.isEnum then
            let enum_name := column.name ++ "_enum"
            if dictHas c enum_name then c
            else c ++ [(enum_name, ⟨enum_name, column.enumValues, schema⟩)]
          else c) c
      else c) c) cache

/-- The `FunctionMetadata` built for one catalog row inside
`_discover_functions`. -/
def mkFunctionMetadata (row : FnRow) : FunctionMetadata :=
  { schema := row.schema
    name := row.name
    return_type := if row.return_type = "" then "void" else row.return_type
    parameters := parse_parameters row.arguments
    type := determine_function_type row.returns_set row.return_type row.kind
    object_type := row.object_type
    is_strict := row.is_strict
    description := row.description }

/-- `ModelManager._discover_functions`: bucket each catalog row into fresh
function / procedure / trigger dictionaries keyed `f"{row.schema}.{row.name}"`
according to `row.object_type`. -/
def discover_functions (db : DbSnapshot) :
    List (String × FunctionMetadata) × List (String × FunctionMetadata)
      × List (String × FunctionMetadata) :=
  db.fnRows.foldl (fun caches row =>
    let md := mkFunctionMetadata row
    let key := row.schema ++ "." ++ row.name
    if row.object_type = "trigger" then
      (caches.1, caches.2.1, dictSet caches.2.2 key md)
    else if row.object_type = "procedure" then
      (caches.1, dictSet caches.2.1 key md, caches.2.2)
    else if row.object_type = "function" then
      (dictSet caches.1 key md, caches.2.1, caches.2.2)
    else caches) ([], [], [])

/-- `ModelManager._load_functions`: run the discovery and then publish the
three fresh dictionaries by plain attribute assignment. -/
def load_functions (db : DbSnapshot) (s : MMState) : MMState :=
  let caches := discover_functions db
  { s with fn_cache := caches.1, proc_cache := caches.2.1,
           trig_cache := caches.2.2 }

/-- A `__post_init__`-style (re)load pass run over an existing state:
`_load_models`, `_load_enums`, `_load_views`, `_load_functions` in order.
This is also the body of the cache-reload endpoint, which re-invokes the four
loaders on the already-populated manager. -/
def reload (include_schemas exclude_tables : List String) (db : DbSnapshot)
    (s : MMState) : MMState :=
  let s := { s with table_cache := load_models include_schemas exclude_tables db s.table_cache }
  let s := { s with enum_cache := load_enums include_schemas exclude_tables db s.enum_cache }
  let s := { s with view_cache := load_views include_schemas db s.view_cache }
  load_functions db s

/-- A reload in which the first three stages succeed and `_load_functions`
raises inside `_discover_functions` (e.g. the discovery query fails), before
any of the three function dictionaries is assigned: the state the manager is
left in when the exception propagates. -/
def reload_fail_at_functions (include_schemas exclude_tables : List String)
    (db : DbSnapshot) (s : MMState) : MMState :=
  let s := { s with table_cache := load_models include_schemas exclude_tables db s.table_cache }
  let s := { s with enum_cache := load_enums include_schemas exclude_tables db s.enum_cache }
  { s with view_cache := load_views include_schemas db s.view_cache }

/- ## Query Filter Translator: `CrudOps` (src/forge/api/crud.py) and
`ViewOps._build_sql_query` (src/forge/api/views.py) -/

/-- The reserved control keys excluded from filtering
(`standard_params` in `_extract_filter_params`). -/
def standard_params : List String := ["limit", "offset", "order_by", "order_dir"]

/-- A query-params object as `model_dump(exclude_unset=True)` presents it:
request keys with their values, `none` for Python `None`. -/
abbrev FilterMap := List (String × Option PyValue)

/-- The query-params object of a generated route: column-named fields plus
the typed control fields `limit`, `offset`, `order_by`, `order_dir`. -/
structure ReadFilters where
  columns : FilterMap := []
  limit : Option Int := none
  offset : Option Int := none
  order_by : Option String := none
  order_dir : Option String := none
deriving DecidableEq, Repr

/-- `filters.model_dump(exclude_unset=True)`: the full key/value mapping,
control fields included under their reserved names. -/
def ReadFilters.dump (f : ReadFilters) : FilterMap :=
  f.columns ++
    [("limit", f.limit.map PyValue.int),
     ("offset", f.offset.map PyValue.int),
     ("order_by", f.order_by.map PyValue.str),
     ("order_dir", f.order_dir.map PyValue.str)]

/-- `CrudOps._extract_filter_params`: keep the dumped keys that are not
standard control params and whose value is not `None`. -/
def extract_filter_params (attrs : FilterMap) : List (String × PyValue) :=
  attrs.filterMap (fun kv =>
    match kv.2 with
    | some v => if standard_params.contains kv.1 then none else some (kv.1, v)
    | none => none)

/-- `CrudOps._build_filtered_query`: apply an equality filter for each
extracted key whose name resolves to an attribute of the SQLAlchemy model
(`getattr(self.sqlalchemy_model, field_name, None)`); unknown keys are
skipped without error. The result is the list of applied predicates. -/
def build_filtered_query (modelAttrs : List String) (attrs : FilterMap) :
    List (String × PyValue) :=
  (extract_filter_params attrs).filter (fun kv => modelAttrs.contains kv.1)

/-- The query shape produced by a read route: equality predicates, optional
limit and offset, and an optional ordering `(column, descending)`. -/
structure QuerySpec where
  predicates : List (String × PyValue) := []
  limit : Option Int := none
  offset : Option Int := none
  order : Option (String × Bool) := none
deriving DecidableEq, Repr

/-- Python truthiness of an `Optional[int]`: `None` and `0` are falsy. -/
def pyTruthyInt : Option Int → Bool
  | none => false
  | some n => n != 0

/-- Python truthiness of an `Optional[str]`: `None` and `""` are falsy. -/
def pyTruthyStr : Option String → Bool
  | none => false
  | some s => s != ""

/-- `read_resources` in `CrudOps.read`: build the filtered query, then apply
`limit`/`offset` when truthy, then ordering when `order_by` is truthy and
names an attribute of the model, descending exactly when
`order_dir == "desc"`. -/
def read_resources_query (modelAttrs : List String) (f : ReadFilters) : QuerySpec :=
  let q : QuerySpec := { predicates := build_filtered_query modelAttrs f.dump }
  let q := if pyTruthyInt f.limit then { q with limit := f.limit } else q
  let q := if pyTruthyInt f.offset then { q with offset := f.offset } else q
  if pyTruthyStr f.order_by then
    match f.order_by with
    | some ob =>
      if modelAttrs.contains ob then
        { q with order := some (ob, f.order_dir = some "desc") }
      else q
    | none => q
  else q

/-- The query shape assembled by `ViewOps._build_sql_query`: the WHERE
conditions (bound as parameters), and the `LIMIT`, `OFFSET` and
`ORDER BY` clauses appended to the SQL text. -/
structure ViewQuery where
  whereConds : List (String × PyValue) := []
  limit : Option Int := none
  offset : Option Int := none
  order : Option (String × Bool) := none
deriving DecidableEq, Repr

/-- `ViewOps._build_sql_query`: drop reserved and `None`-valued keys, keep a
`field = :param` condition only for keys present among the view's columns;
append `LIMIT`/`OFFSET` whenever the attribute is present (no sign or zero
check), and `ORDER BY {order_by}` verbatim whenever present, `DESC` exactly
when `order_dir == "desc"`. -/
def build_sql_query (tableColumns : List String) (f : ReadFilters) : ViewQuery :=
  let filter_dict := f.dump.filterMap (fun kv =>
    match kv.2 with
    | some v => if standard_params.contains kv.1 then none else some (kv.1, v)
    | none => none)
  let conds := filter_dict.filter (fun kv => tableColumns.contains kv.1)
  { whereConds := conds
    limit := f.limit
    offset := f.offset
    order := f.order_by.map (fun ob => (ob, f.order_dir = some "desc")) }

/- ## CRUD update / delete handlers (src/forge/api/crud.py) -/

/-- A stored row and the table contents they form. -/
abbrev Row := List (String × PyValue)
abbrev Db := List Row

/-- An `HTTPException(status_code, detail)`. -/
structure HttpError where
  status : Nat
  detail : String
deriving DecidableEq, Repr

/-- Whether a row satisfies every equality predicate of the filtered query. -/
def rowMatches (preds : List (String × PyValue)) (r : Row) : Bool :=
  preds.all (fun kv => dictFind r kv.1 = some kv.2)

/-- Overwrite the matched rows' fields with the update payload. -/
def applyUpdate (updateData : List (String × PyValue)) (r : Row) : Row :=
  updateData.foldl (fun r kv => dictSet r kv.1 kv.2) r

/-- `update_resource` in `CrudOps.update`: with no filter values outside the
reserved keys it raises `HTTPException(400, "No filters provided")` before
any query is built; otherwise it updates the rows matching the filtered
query. A 404 raised inside the `try` block for an empty match is caught by
the blanket `except` and re-raised as a 400 `"Update failed: ..."`. The
returned `Db` is the database after the handler; on error it is unchanged. -/
def update_resource (modelAttrs : List String) (f : ReadFilters)
    (updateData : List (String × PyValue)) (db : Db) :
    Except HttpError (Db × Nat) :=
  let filters_dict := extract_filter_params f.dump
  if filters_dict.isEmpty then .error ⟨400, "No filters provided"⟩
  else
    let preds := build_filtered_query modelAttrs f.dump
    let matched := db.filter (rowMatches preds)
    if matched.isEmpty then
      .error ⟨400, "Update failed: 404: No matching resources found"⟩
    else
      .ok (db.map (fun r => if rowMatches preds r then applyUpdate updateData r else r),
           matched.length)

/-- `delete_resource` in `CrudOps.delete`: with no filter values outside the
reserved keys it raises `HTTPException(400, "No filters provided")` before
any query is built; with filters matching nothing it returns without deleting;
otherwise it deletes the matching rows. -/
def delete_resource (modelAttrs : List String) (f : ReadFilters) (db : Db) :
    Except HttpError (Db × Nat) :=
  let filters_dict := extract_filter_params f.dump
  if filters_dict.isEmpty then .error ⟨400, "No filters provided"⟩
  else
    let preds := build_filtered_query modelAttrs f.dump
    let matched := db.filter (rowMatches preds)
    if matched.isEmpty then .ok (db, 0)
    else .ok (db.filter (fun r => !(rowMatches preds r)), matched.length)

/- ## Enum introspection: `PostgresIntrospector.get_enums`
(src/prism/core/introspection/postgres.py) -/

/-- A `pg_enum` catalog row: a label and its `enumsortorder`. -/
structure PgEnumRow where
  enumlabel : String
  enumsortorder : Nat
deriving DecidableEq, Repr

/-- Insertion step of sorting by `enumsortorder` (stable; sort orders are
unique in the catalog). -/
def insertBySortOrder (x : PgEnumRow) : List PgEnumRow → List PgEnumRow
  | [] => [x]
  | y :: ys =>
    if x.enumsortorder ≤ y.enumsortorder then x :: y :: ys
    else y :: insertBySortOrder x ys

/-- `array_agg(e.enumlabel ORDER BY e.enumsortorder)` of the `get_enums`
catalog query: the labels sorted by their sort order. -/
def array_agg_ordered (rows : List PgEnumRow) : List String :=
  (rows.foldr insertBySortOrder []).map (fun r => r.enumlabel)

/-- The catalog rows of one enumerated type whose labels were declared in the
order `decl`: `CREATE TYPE` assigns increasing `enumsortorder` values in
declaration order. -/
def catalogRows (decl : List String) : List PgEnumRow :=
  (List.enum decl).map (fun p => ⟨p.2, p.1⟩)

/-- `PostgresIntrospector.get_enums`, per result row: build
`EnumInfo(name=row.name, schema=schema, values=row.values)` with the
aggregated values passed through unchanged. -/
def get_enums_introspect (schema tyname : String) (decl : List String) : EnumInfo :=
  { name := tyname, values := array_agg_ordered (catalogRows decl), schema := schema }

/- ## Claim-statement vocabulary -/

/-- The claim's description of how one comma-delimited argument entry is
parsed, stated over the whitespace tokens of the entry: a leading mode
keyword (case-insensitive) gives the mode, with the next token the name and
the joined remainder the type; otherwise the mode defaults to `IN`, the
first token is the name and the joined remainder the type; an entry with no
determinable tokens yields the default parameter. -/
def entrySpecOf (arg : String) (p : FunctionParameter) : Prop :=
  match pySplitWs arg with
  | [] => p = ⟨"", "", "IN"⟩
  | p0 :: rest =>
    if parameterModes.contains (pyUpper p0) then
      p.mode = pyUpper p0 ∧ p.name = rest.headD "" ∧
        p.type = pyJoinSpace (rest.drop 1)
    else
      p.mode = "IN" ∧ p.name = p0 ∧ p.type = pyJoinSpace rest

/- ## Helper lemmas -/

theorem dictFind_dictSet_self {α : Type} (d : List (String × α)) (k : String) (v : α) :
    dictFind (dictSet d k v) k = some v := by
  induction d with
  | nil => simp [dictSet, dictFind]
  | cons hd tl ih =>
    by_cases h : hd.1 = k
    · simp [dictSet, dictFind, h]
    · simp [dictSet, dictFind, h, ih]

theorem dictFind_dictSet_ne {α : Type} (d : List (String × α)) (k k2 : String) (v : α)
    (h : k ≠ k2) : dictFind (dictSet d k v) k2 = dictFind d k2 := by
  induction d with
  | nil => simp [dictSet, dictFind, h]
  | cons hd tl ih =>
    by_cases h1 : hd.1 = k
    · simp [dictSet, dictFind, h1, h]
    · simp [dictSet, dictFind, h1, ih]

theorem dictFind_append_fresh {α : Type} (d : List (String × α)) (k : String) (v : α)
    (h : dictFind d k = none) : dictFind (d ++ [(k, v)]) k = some v := by
  induction d with
  | nil => simp [dictFind]
  | cons hd tl ih =>
    by_cases h1 : hd.1 = k
    · simp [dictFind, h1] at h
    · simp [dictFind, h1] at h ⊢
      exact ih h

/- ## C6 -/

/-- C6: for raw return type `TABLE(id int, name text)` the Routine Invocation
Planner yields exactly the fields `id` and `name` with the scalar kinds
mapped from `int` and `text`; for raw return type `integer` on a scalar
routine it yields the single field `result` of the mapped integer kind. -/
theorem c6_planner_output_shapes :
    function_output_fields .table "TABLE(id int, name text)" =
      [("id", .ofEq (.scalar .int)), ("name", .ofEq (.scalar .str))]
  ∧ function_output_fields .scalar "integer" =
      [("result", .ofEq (.scalar .int))] := by
  constructor <;> decide

/- ## C9 -/

/-- C9: the type-mapping function is total — it is a plain function returning
a descriptor for every input string — and any type name the engine does not
recognize (not a base name, not array-suffixed, not of the JSON family) maps
to the generic text fallback kind rather than raising; recognized base names
map to their documented scalar kind. -/
theorem c9_type_mapping_fallback_total (s : String)
    (harr : pyEndsWith (pyLower s) "[]" = false)
    (hjson : jsonFamily.contains (pyLower s) = false) :
    (dictFind baseScalarKinds (pyLower s) = none → get_eq_type s = .scalar .str)
  ∧ (∀ k, dictFind baseScalarKinds (pyLower s) = some k →
      get_eq_type s = .scalar k) := by
  have hj : pyLower s ∉ jsonFamily := by simpa using hjson
  constructor
  · intro hbase
    simp [get_eq_type, get_eq_type_core, harr, hj, hbase]
  · intro k hk
    simp [get_eq_type, get_eq_type_core, harr, hj, hk]

/-- C9 witness: the unrecognized type name `frobnicate` maps to the generic
text fallback kind, and the recognized base name `bigint` maps to its
documented integer kind. -/
theorem c9_witness :
    get_eq_type "frobnicate" = .scalar .str ∧ get_eq_type "bigint" = .scalar .int :=
  ⟨(c9_type_mapping_fallback_total "frobnicate" (by decide) (by decide)).1 (by decide),
   (c9_type_mapping_fallback_total "bigint" (by decide) (by decide)).2 .int (by decide)⟩

/- ## C8 -/

theorem foldr_insertBySortOrder_enumFrom (k : Nat) (decl : List String) :
    ((List.enumFrom k decl).map (fun p => PgEnumRow.mk p.2 p.1)).foldr insertBySortOrder []
      = (List.enumFrom k decl).map (fun p => PgEnumRow.mk p.2 p.1) := by
  induction decl generalizing k with
  | nil => rfl
  | cons a l ih =>
    simp only [List.enumFrom, List.map, List.foldr, ih (k + 1)]
    cases l with
    | nil => rfl
    | cons b m =>
      simp [insertBySortOrder, Nat.le_succ]

theorem array_agg_ordered_catalogRows (decl : List String) :
    array_agg_ordered (catalogRows decl) = decl := by
  unfold array_agg_ordered catalogRows
  rw [List.enum]
  rw [foldr_insertBySortOrder_enumFrom 0 decl]
  rw [List.map_map]
  have : ((fun r => r.enumlabel) ∘ fun p : Nat × String => PgEnumRow.mk p.2 p.1)
      = Prod.snd := rfl
  rw [this, List.enumFrom_map_snd]

theorem load_enums_singleton_fresh (ecache : List (String × EnumInfo))
    (schema tname : String) (col : IntroColumn) (names : List String)
    (htin : names.contains tname = true) (henum : col.isEnum = true)
    (hfresh : dictHas ecache (col.name ++ "_enum") = false) :
    load_enums [schema] [] ⟨[⟨tname, [col]⟩], fun _ => names, fun _ => [], []⟩ ecache
      = ecache ++ [(col.name ++ "_enum",
          ⟨col.name ++ "_enum", col.enumValues, schema⟩)] := by
  have hmem : tname ∈ names := by simpa using htin
  simp [load_enums, hmem, henum, hfresh]

/-- C8: the value sequence recorded for a discovered enumerated type equals
the catalog's declaration order of its labels (modelled as increasing
`enumsortorder`, which the `get_enums` query aggregates by), and the
`ModelManager` enum loader stores the column's enum label list unchanged —
never re-sorted — as witnessed concretely by a non-alphabetical order
surviving both paths. -/
theorem c8_enum_order_preserved (schema tyname : String) (decl : List String)
    (ecache : List (String × EnumInfo)) (tname : String) (col : IntroColumn)
    (names : List String) (htin : names.contains tname = true)
    (henum : col.isEnum = true)
    (hfresh : dictHas ecache (col.name ++ "_enum") = false) :
    (get_enums_introspect schema tyname decl).values = decl
  ∧ dictFind
      (load_enums [schema] [] ⟨[⟨tname, [col]⟩], fun _ => names, fun _ => [], []⟩ ecache)
      (col.name ++ "_enum")
      = some ⟨col.name ++ "_enum", col.enumValues, schema⟩
  ∧ (get_enums_introspect "public" "status" ["pending", "active", "closed"]).values
      = ["pending", "active", "closed"]
  ∧ (get_enums_introspect "public" "status" ["pending", "active", "closed"]).values
      ≠ ["active", "closed", "pending"] := by
  refine ⟨?_, ?_, by decide, by decide⟩
  · exact array_agg_ordered_catalogRows decl
  · rw [load_enums_singleton_fresh ecache schema tname col names htin henum hfresh]
    refine dictFind_append_fresh ecache _ _ ?_
    unfold dictHas at hfresh
    cases h : dictFind ecache (col.name ++ "_enum") with
    | none => rfl
    | some v => rw [h] at hfresh; simp at hfresh

/-- C8 witness: the order-preservation theorem applied at the seeded
three-value enumerated type and a concrete fresh cache. -/
theorem c8_witness :
    (get_enums_introspect "public" "status" ["pending", "active", "closed"]).values
        = ["pending", "active", "closed"]
  ∧ dictFind
      (load_enums ["public"] []
        ⟨[⟨"orders", [⟨"status", true, ["pending", "active", "closed"]⟩]⟩],
         fun _ => ["orders"], fun _ => [], []⟩ [])
      ("status" ++ "_enum")
      = some ⟨"status" ++ "_enum", ["pending", "active", "closed"], "public"⟩ :=
  ⟨(c8_enum_order_preserved "public" "status" ["pending", "active", "closed"]
      [] "orders" ⟨"status", true, ["pending", "active", "closed"]⟩ ["orders"]
      (by decide) (by decide) (by decide)).1,
   (c8_enum_order_preserved "public" "status" ["pending", "active", "closed"]
      [] "orders" ⟨"status", true, ["pending", "active", "closed"]⟩ ["orders"]
      (by decide) (by decide) (by decide)).2.1⟩

/- ## C7 -/

/-- C7: every comma-delimited entry of a routine argument-list string is
parsed per `entrySpecOf` — a leading (case-insensitive) mode keyword becomes
the mode with the following token the name and the joined remainder the
type, otherwise the mode defaults to `IN` with the first token the name —
an undeterminable entry still yields a parameter with default values, and
the whole parse never fails: it returns exactly one parameter per entry. -/
theorem c7_parse_parameters_per_entry (args_str arg : String) (i : Nat)
    (hne : args_str ≠ "")
    (hentry : (pySplitOnSep ", " args_str)[i]? = some arg) :
    (parse_parameters args_str).length = (pySplitOnSep ", " args_str).length
  ∧ ∃ p, (parse_parameters args_str)[i]? = some p ∧ entrySpecOf arg p := by
  unfold parse_parameters
  rw [if_neg hne]
  refine ⟨List.length_map _ _, parse_parameter_entry arg, ?_, ?_⟩
  · rw [List.getElem?_map, hentry]
    rfl
  · unfold entrySpecOf parse_parameter_entry
    cases h : pySplitWs arg with
    | nil => simp
    | cons p0 rest =>
      by_cases hm : pyUpper p0 ∈ parameterModes
      · simp [hm]
      · simp [hm]

/-- C7 witness: the three-entry signature
`"IN x integer, , y double precision"` — a mode-keyword entry, an empty
entry, and a plain entry whose type spans several tokens — checked at the
first two entries. -/
theorem c7_witness :
    ((parse_parameters "IN x integer, , y double precision").length
        = (pySplitOnSep ", " "IN x integer, , y double precision").length
      ∧ ∃ p, (parse_parameters "IN x integer, , y double precision")[0]? = some p
          ∧ entrySpecOf "IN x integer" p)
  ∧ ((parse_parameters "IN x integer, , y double precision").length
        = (pySplitOnSep ", " "IN x integer, , y double precision").length
      ∧ ∃ p, (parse_parameters "IN x integer, , y double precision")[1]? = some p
          ∧ entrySpecOf "" p) :=
  ⟨c7_parse_parameters_per_entry "IN x integer, , y double precision" "IN x integer" 0
      (by decide) (by decide),
   c7_parse_parameters_per_entry "IN x integer, , y double precision" "" 1
      (by decide) (by decide)⟩

/- ## C2 -/

theorem mem_extract_filter_params (attrs : FilterMap) (kv : String × PyValue)
    (h : kv ∈ extract_filter_params attrs) :
    standard_params.contains kv.1 = false ∧ (kv.1, some kv.2) ∈ attrs := by
  unfold extract_filter_params at h
  rw [List.mem_filterMap] at h
  obtain ⟨⟨k, ov⟩, hmem, hmatch⟩ := h
  cases ov with
  | none => simp at hmatch
  | some v =>
    by_cases hstd : k ∈ standard_params
    · simp [hstd] at hmatch
    · simp [hstd] at hmatch
      subst hmatch
      exact ⟨by simpa using hstd, hmem⟩

theorem read_resources_query_predicates (cols : List String) (f : ReadFilters) :
    (read_resources_query cols f).predicates = build_filtered_query cols f.dump := by
  unfold read_resources_query
  repeat' split
  all_goals rfl

/-- C2: every predicate the CRUD read route or the view route applies filters
on a key that names a real column of the entity and is not a reserved
control key; request keys outside the entity's columns contribute no
predicate and raise no error (the translation is a total function). -/
theorem c2_unknown_filter_keys_dropped (cols : List String) (f : ReadFilters) :
    (∀ kv ∈ (read_resources_query cols f).predicates,
        cols.contains kv.1 = true ∧ standard_params.contains kv.1 = false)
  ∧ (∀ kv ∈ (build_sql_query cols f).whereConds,
        cols.contains kv.1 = true ∧ standard_params.contains kv.1 = false) := by
  constructor
  · intro kv hkv
    rw [read_resources_query_predicates] at hkv
    unfold build_filtered_query at hkv
    rw [List.mem_filter] at hkv
    obtain ⟨hext, hcol⟩ := hkv
    exact ⟨hcol, (mem_extract_filter_params f.dump kv hext).1⟩
  · intro kv hkv
    unfold build_sql_query at hkv
    simp only [List.mem_filter] at hkv
    obtain ⟨hext, hcol⟩ := hkv
    refine ⟨hcol, (mem_extract_filter_params f.dump kv ?_).1⟩
    unfold extract_filter_params
    exact hext

/-- C2 witness: in the spec's example request — `status` active, `limit` 10,
`order_by` `created_at`, plus an `unknown_field` — the surviving predicate
key `status` is a real column and not a reserved key; the full translated
query is also evaluated concretely. -/
theorem c2_witness :
    (["status", "created_at"].contains
        (("status", PyValue.str "active") : String × PyValue).1 = true
      ∧ standard_params.contains
          (("status", PyValue.str "active") : String × PyValue).1 = false)
  ∧ read_resources_query ["status", "created_at"]
      { columns := [("status", some (.str "active")), ("unknown_field", some (.str "x"))],
        limit := some 10, order_by := some "created_at" }
      = { predicates := [("status", .str "active")], limit := some 10,
          offset := none, order := some ("created_at", false) } :=
  ⟨(c2_unknown_filter_keys_dropped ["status", "created_at"]
      { columns := [("status", some (.str "active")), ("unknown_field", some (.str "x"))],
        limit := some 10, order_by := some "created_at" }).1
      ("status", .str "active") (by decide),
   by decide⟩

/- ## C3 -/

/-- C3 counterexample: the CRUD read route guards pagination with Python
truthiness, not a sign check — a present negative limit (`-5`) is applied to
the query even though it is negative, refuting "limit is applied if and only
if present and non-negative" (a present `0`, though non-negative, is not
applied either). -/
theorem c3_counterexample :
    ¬ (∀ (cols : List String) (f : ReadFilters),
        ((read_resources_query cols f).limit ≠ none ↔
          ∃ n, f.limit = some n ∧ 0 ≤ n)) := by
  intro hclaim
  have h := (hclaim ["status"] { limit := some (-5) }).mp (by decide)
  obtain ⟨n, hn, hnn⟩ := h
  simp only [Option.some.injEq] at hn
  omega

theorem ite_truthy_int_ne_none (o : Option Int) :
    ((if pyTruthyInt o then o else none) ≠ none ↔ ∃ n, o = some n ∧ n ≠ 0) := by
  cases o with
  | none => simp [pyTruthyInt]
  | some n => by_cases hn : n = 0 <;> simp [pyTruthyInt, hn]

theorem ite_truthy_int_applied (o : Option Int)
    (h : (if pyTruthyInt o then o else none) ≠ none) :
    (if pyTruthyInt o then o else none) = o := by
  cases o with
  | none => simp [pyTruthyInt]
  | some n =>
    by_cases hn : n = 0
    · subst hn; simp [pyTruthyInt] at h
    · simp [pyTruthyInt, hn]

theorem read_resources_query_limit (cols : List String) (f : ReadFilters) :
    (read_resources_query cols f).limit
      = if pyTruthyInt f.limit then f.limit else none := by
  unfold read_resources_query
  repeat' split
  all_goals rfl

theorem read_resources_query_offset (cols : List String) (f : ReadFilters) :
    (read_resources_query cols f).offset
      = if pyTruthyInt f.offset then f.offset else none := by
  unfold read_resources_query
  repeat' split
  all_goals rfl

theorem read_resources_query_order (cols : List String) (f : ReadFilters) :
    (read_resources_query cols f).order
      = if pyTruthyStr f.order_by then
          match f.order_by with
          | some ob =>
            if cols.contains ob then some (ob, decide (f.order_dir = some "desc"))
            else none
          | none => none
        else none := by
  unfold read_resources_query
  repeat' split
  all_goals rfl

/-- C3 corrected: on the CRUD read route, `limit` and `offset` are applied
if and only if present and nonzero (Python truthiness — negative values are
applied, zero is treated as absent), and an applied value is passed through
unchanged; ordering happens exactly for a nonempty `order_by` naming a model
column, descending exactly when `order_dir = "desc"`. On the view route,
`limit` and `offset` are passed through whenever present (any value, sign
unchecked) and `order_by` is applied verbatim whenever present, with the same
direction rule and no column check. -/
theorem c3_amended_control_keys (cols : List String) (f : ReadFilters) :
    ((read_resources_query cols f).limit ≠ none ↔ ∃ n, f.limit = some n ∧ n ≠ 0)
  ∧ ((read_resources_query cols f).limit ≠ none →
        (read_resources_query cols f).limit = f.limit)
  ∧ ((read_resources_query cols f).offset ≠ none ↔ ∃ n, f.offset = some n ∧ n ≠ 0)
  ∧ ((read_resources_query cols f).offset ≠ none →
        (read_resources_query cols f).offset = f.offset)
  ∧ (∀ ob d, (read_resources_query cols f).order = some (ob, d) ↔
        (f.order_by = some ob ∧ ob ≠ "" ∧ cols.contains ob = true ∧
          d = decide (f.order_dir = some "desc")))
  ∧ ((build_sql_query cols f).limit = f.limit)
  ∧ ((build_sql_query cols f).offset = f.offset)
  ∧ ((build_sql_query cols f).order
      = f.order_by.map (fun ob => (ob, decide (f.order_dir = some "desc")))) := by
  refine ⟨?_, ?_, ?_, ?_, ?_, rfl, rfl, rfl⟩
  · rw [read_resources_query_limit]
    exact ite_truthy_int_ne_none f.limit
  · rw [read_resources_query_limit]
    exact ite_truthy_int_applied f.limit
  · rw [read_resources_query_offset]
    exact ite_truthy_int_ne_none f.offset
  · rw [read_resources_query_offset]
    exact ite_truthy_int_applied f.offset
  · intro ob d
    rw [read_resources_query_order]
    cases hob : f.order_by with
    | none => simp [pyTruthyStr]
    | some ob2 =>
      by_cases hemp : ob2 = ""
      · subst hemp
        simp [pyTruthyStr]
        intro h1 h2
        exact (h2 h1.symm).elim
      · by_cases hcol : cols.contains ob2
        · simp only [pyTruthyStr, hemp, hcol, if_pos, bne_iff_ne, ne_eq,
            not_false_iff, if_true, Option.some.injEq, Prod.mk.injEq]
          aesop
        · simp only [pyTruthyStr]
          aesop

/- ## C10 -/

theorem extract_filter_params_nil (attrs : FilterMap)
    (h : ∀ kv ∈ attrs, standard_params.contains kv.1 = true ∨ kv.2 = none) :
    extract_filter_params attrs = [] := by
  unfold extract_filter_params
  rw [List.filterMap_eq_nil]
  intro kv hkv
  rcases h kv hkv with hstd | hnone
  · cases hv : kv.2 with
    | none => simp [hv]
    | some v =>
      have hmem : kv.1 ∈ standard_params := by simpa using hstd
      simp [hv, hmem]
  · simp [hnone]

/-- C10: when a request supplies no filter value outside the reserved control
keys, both the update and the delete handlers raise
`HTTPException(400, "No filters provided")` before any query is built or
executed — the error return carries no new database state, so the database
is unchanged — and the rejection is literally the same for both handlers. -/
theorem c10_no_filters_rejected (cols : List String) (f : ReadFilters)
    (upd : List (String × PyValue)) (db : Db)
    (h : ∀ kv ∈ f.dump, standard_params.contains kv.1 = true ∨ kv.2 = none) :
    update_resource cols f upd db = .error ⟨400, "No filters provided"⟩
  ∧ delete_resource cols f db = .error ⟨400, "No filters provided"⟩ := by
  have hnil := extract_filter_params_nil f.dump h
  constructor
  · unfold update_resource
    simp [hnil]
  · unfold delete_resource
    simp [hnil]

/-- C10 witness: a request with every control key unset and no column filter,
against a one-row database, is rejected identically by both handlers. -/
theorem c10_witness :
    update_resource ["status"] {} [] [[("status", PyValue.str "a")]]
        = .error ⟨400, "No filters provided"⟩
  ∧ delete_resource ["status"] {} [[("status", PyValue.str "a")]]
        = .error ⟨400, "No filters provided"⟩ :=
  c10_no_filters_rejected ["status"] {} [] [[("status", .str "a")]] (by decide)

/- ## C5 -/

/-- C5: result shaping of a routine invocation — zero rows give an empty list
for a set-returning routine and an all-null record otherwise (for a scalar
routine that record is `{result: None}`); a scalar routine's single
one-column row collapses to `{result: value}` while a wider single row is
returned as the full record; more than one row, or a set-returning routine
with rows, always gives the list of records. The hypothesis records the
execution model: invoking a scalar routine via `SELECT * FROM fn(...)`
yields at most one row. -/
theorem c5_result_shaping (fnType : FunctionType) (outFields : List String)
    (rows : List SqlRecord)
    (hscalarRows : fnType = .scalar → rows.length ≤ 1) :
    (rows = [] → is_set_of fnType = true →
        execute_function_shape fnType (is_set_of fnType) outFields rows = .list [])
  ∧ (rows = [] → is_set_of fnType = false → fnType ≠ .scalar →
        execute_function_shape fnType (is_set_of fnType) outFields rows
          = .single (outFields.map (fun fl => (fl, none))))
  ∧ (fnType = .scalar → rows = [] →
        execute_function_shape fnType (is_set_of fnType) outFields rows
          = .single [("result", none)])
  ∧ (∀ k v, fnType = .scalar → rows = [[(k, v)]] →
        execute_function_shape fnType (is_set_of fnType) outFields rows
          = .single [("result", v)])
  ∧ (∀ r, fnType = .scalar → rows = [r] → 1 < r.length →
        execute_function_shape fnType (is_set_of fnType) outFields rows = .single r)
  ∧ (1 < rows.length ∨ (is_set_of fnType = true ∧ rows ≠ []) →
        execute_function_shape fnType (is_set_of fnType) outFields rows
          = .list rows) := by
  refine ⟨?_, ?_, ?_, ?_, ?_, ?_⟩
  · rintro rfl hset
    cases fnType <;> simp_all [execute_function_shape, is_set_of]
  · rintro rfl hset hns
    cases fnType <;> simp_all [execute_function_shape, is_set_of]
  · rintro rfl rfl
    simp [execute_function_shape]
  · rintro k v rfl rfl
    simp [execute_function_shape]
  · rintro r rfl rfl hlen
    match r, hlen with
    | a :: b :: u, _ => simp [execute_function_shape]
  · intro hdisj
    by_cases hscalar : fnType = .scalar
    · exfalso
      have hle := hscalarRows hscalar
      rcases hdisj with hlen | ⟨hset, _⟩
      · omega
      · rw [hscalar] at hset
        simp [is_set_of] at hset
    · cases rows with
      | nil =>
        rcases hdisj with hlen | ⟨_, hne⟩
        · simp at hlen
        · exact (hne rfl).elim
      | cons r rest =>
        have hcond : (rest.length + 1 > 1 || is_set_of fnType) = true := by
          rcases hdisj with hlen | ⟨hset, _⟩
          · have h1 : rest.length + 1 > 1 := by simpa using hlen
            simp [h1]
          · simp [hset]
        simp [execute_function_shape, hscalar, hcond]
        intro hnil
        subst hnil
        simpa using hcond

/-- C5 witness: a set-returning routine with zero rows gives the empty list;
a scalar routine's single one-column row collapses to `{result: value}`. -/
theorem c5_witness :
    execute_function_shape .setReturning (is_set_of .setReturning) [] [] = .list []
  ∧ execute_function_shape .scalar (is_set_of .scalar) ["result"]
        [[("count", some (.int 7))]] = .single [("result", some (.int 7))] :=
  ⟨(c5_result_shaping .setReturning [] [] (by decide)).1 rfl (by decide),
   (c5_result_shaping .scalar ["result"] [[("count", some (.int 7))]]
      (by decide)).2.2.2.1 "count" (some (.int 7)) rfl rfl⟩

/- ## C1 -/

/-- C1 counterexample: a reload that fails inside `_load_functions` after the
tables stage succeeded has already mutated the table cache in place, entry by
entry — the final state pairs tables from the failed new pass (here the new
`public.orders` entry and the re-written `public.users` entry) with the old
function cache, so the previously published collections are not left as they
were and a reader observes a mix of the old and the new pass. -/
theorem c1_counterexample :
    let db : DbSnapshot :=
      ⟨[⟨"users", [{ name := "id" }, { name := "email" }]⟩,
        ⟨"orders", [{ name := "id" }]⟩],
       fun _ => ["users", "orders"], fun _ => [], []⟩
    let s0 : MMState :=
      { table_cache := [("public.users", ⟨"users", [{ name := "id" }]⟩)],
        fn_cache := [("public.get_user",
          ⟨"public", "get_user", "integer", [], .scalar, "function", false, none⟩)] }
    let s1 := reload_fail_at_functions ["public"] [] db s0
    s1.table_cache ≠ s0.table_cache
  ∧ ("public.orders", (⟨"orders", [{ name := "id" }]⟩ : IntroTable)) ∈ s1.table_cache
  ∧ s1.fn_cache = s0.fn_cache := by decide

/-- C1 corrected: a reload failing after tables are read but before functions
leaves the functions, procedures and triggers collections unchanged — they
are only ever replaced wholesale by a successful discovery, whose published
contents are independent of the prior state — but the tables (and views and
enums) collections are mutated in place entry by entry starting from the old
cache, so they are in general changed by the failed pass. -/
theorem c1_amended_failed_reload (schemas excl : List String) (db : DbSnapshot)
    (s : MMState) :
    (reload_fail_at_functions schemas excl db s).fn_cache = s.fn_cache
  ∧ (reload_fail_at_functions schemas excl db s).proc_cache = s.proc_cache
  ∧ (reload_fail_at_functions schemas excl db s).trig_cache = s.trig_cache
  ∧ (∀ s2 : MMState,
        (load_functions db s).fn_cache = (load_functions db s2).fn_cache
      ∧ (load_functions db s).proc_cache = (load_functions db s2).proc_cache
      ∧ (load_functions db s).trig_cache = (load_functions db s2).trig_cache)
  ∧ (reload_fail_at_functions schemas excl db s).table_cache
      = load_models schemas excl db s.table_cache :=
  ⟨rfl, rfl, rfl, fun _ => ⟨rfl, rfl, rfl⟩, rfl⟩

/- ## C4 -/

/-- C4 counterexample: enum cache entries are keyed `<column>_enum`, not
`schema.name`, and a later same-named enum does not overwrite: introspecting
two schemas whose tables both carry an enum column `status` leaves a single
entry under the unqualified key `status_enum` holding the first schema's
values, with no schema-qualified key present. -/
theorem c4_counterexample :
    let db : DbSnapshot :=
      ⟨[⟨"orders", [⟨"status", true, ["a", "b"]⟩]⟩,
        ⟨"shipments", [⟨"status", true, ["x", "y"]⟩]⟩],
       fun sc => if sc = "s1" then ["orders"] else ["shipments"],
       fun _ => [], []⟩
    let ec := load_enums ["s1", "s2"] [] db []
    ec = [("status_enum", ⟨"status_enum", ["a", "b"], "s1"⟩)]
  ∧ dictFind ec "s1.status_enum" = none
  ∧ dictFind ec "s2.status_enum" = none := by decide

/-- C4 corrected: table entries (and likewise views and routines) are keyed
`schema.name` and a later introspection of the same key overwrites the cache
entry in place; enum entries instead are keyed `<column>_enum` without schema
qualification, and a later enum with the same key is skipped — the first
entry wins. -/
theorem c4_amended_cache_keying (cache : List (String × IntroTable))
    (ecache : List (String × EnumInfo)) (schema tname : String)
    (t : IntroTable) (col : IntroColumn) (names : List String)
    (hin : names.contains t.name = true)
    (htin : names.contains tname = true)
    (henum : col.isEnum = true)
    (hdup : dictHas ecache (col.name ++ "_enum") = true) :
    dictFind (load_models [schema] [] ⟨[t], fun _ => names, fun _ => [], []⟩ cache)
        (schema ++ "." ++ t.name) = some t
  ∧ load_enums [schema] [] ⟨[⟨tname, [col]⟩], fun _ => names, fun _ => [], []⟩ ecache
      = ecache := by
  constructor
  · have hmem : t.name ∈ names := by simpa using hin
    have hstep : load_models [schema] [] ⟨[t], fun _ => names, fun _ => [], []⟩ cache
        = dictSet cache (schema ++ "." ++ t.name) t := by
      simp [load_models, hmem]
    rw [hstep]
    exact dictFind_dictSet_self cache _ t
  · have hmem : tname ∈ names := by simpa using htin
    simp [load_enums, hmem, henum, hdup]

/-- C4 witness: re-introspecting `s1.orders` overwrites the old table entry
under the key `s1.orders`; a second `status` enum is skipped, keeping the
first schema's values. -/
theorem c4_witness :
    dictFind (load_models ["s1"] []
        ⟨[⟨"orders", [⟨"status", true, ["x", "y"]⟩]⟩],
         fun _ => ["orders"], fun _ => [], []⟩
        [("s1.orders", ⟨"orders", [⟨"status", true, ["a", "b"]⟩]⟩)])
        ("s1" ++ "." ++ "orders")
      = some ⟨"orders", [⟨"status", true, ["x", "y"]⟩]⟩
  ∧ load_enums ["s1"] []
        ⟨[⟨"orders", [⟨"status", true, ["x", "y"]⟩]⟩],
         fun _ => ["orders"], fun _ => [], []⟩
        [("status_enum", ⟨"status_enum", ["a", "b"], "s1"⟩)]
      = [("status_enum", ⟨"status_enum", ["a", "b"], "s1"⟩)] :=
  c4_amended_cache_keying
    [("s1.orders", ⟨"orders", [⟨"status", true, ["a", "b"]⟩]⟩)]
    [("status_enum", ⟨"status_enum", ["a", "b"], "s1"⟩)]
    "s1" "orders" ⟨"orders", [⟨"status", true, ["x", "y"]⟩]⟩
    ⟨"status", true, ["x", "y"]⟩ ["orders"]
    (by decide) (by decide) (by decide) (by decide)
